import Mathlib

/-!
Verification of the CorTec implantapi stimulation command model
(stimulation atoms, functions, commands, and the repetition-aware
traversal producers) against its design specification.

The repository ships the public interface headers
(`IStimulationCommand.h`, `IStimulationFunction.h`, `stimulationfunction.h`,
`stimulationcommand.h`) together with their documentation and example
callers, but not the implementation classes behind the interfaces.  The
behavioural definitions below are therefore modelled from the
specification (which matches the header documentation); the integer
widths of the public interface (`uint16_t` repetitions and tracing id on
commands, `uint32_t` repetitions on functions) are taken directly from
the header declarations.
-/

/-- Kind tag of a stimulation atom, the closed tagged variant of the data
model: main pulse, dead zone, counter pulse, pause, or no type. -/
inductive AtomKind where
  | mainPulse
  | deadZone
  | counterPulse
  | pause
  | noType
deriving DecidableEq, Repr

/-- A stimulation atom: an elementary waveform segment with a kind, a signed
amplitude in microamps and an unsigned duration in microseconds. -/
structure StimulationAtom where
  kind : AtomKind
  amplitude : Int
  duration : Nat
deriving DecidableEq, Repr

/-- Outcome of a fallible interface call: success or the InvalidArgument
error surfaced synchronously at the mutating call. -/
inductive Status where
  | ok
  | invalidArgument
deriving DecidableEq, Repr

/-- Modelled from the spec: the main-pulse amplitude grid of position 1 of
the pulse family (the validating implementation class is not in the
repository).  Acceptable values are integers in [-6120, 0] microamps, with
step 12 for amplitudes at or above -3060 and step 24 below -3060. -/
def mainAmplitudeOk (a : Int) : Bool :=
  decide (-6120 ≤ a ∧ a ≤ 0 ∧
    (-3060 ≤ a → a % 12 = 0) ∧ (a < -3060 → a % 24 = 0))

/-- Modelled from the spec: the 10-microsecond duration grid used by the
main pulse, dead zone 0 and the pause atom: multiples of 10 in [10, 2550]. -/
def duration10Ok (d : Nat) : Bool :=
  decide (d % 10 = 0 ∧ 10 ≤ d ∧ d ≤ 2550)

/-- Modelled from the spec: the dead-zone-1 duration grid of position 5 of
the pulse family: steps of 80 starting from 0 with minimal legal value 10,
up to 20400, i.e. the set 10, 80, 160, ..., 20400. -/
def deadZone1DurationOk (d : Nat) : Bool :=
  decide ((d % 80 = 0 ∨ d = 10) ∧ 10 ≤ d ∧ d ≤ 20400)

/-- Modelled from the spec: the per-append validation rule of
`IStimulationFunction::append`, whose implementation class is not in the
repository.  Given the atoms already accepted (in order) it decides
whether the next atom is legal: a first atom fixes the family (one pause
atom, or the strict five-position pulse pattern), later atoms must obey
their position's amplitude/duration rule, and a complete function accepts
nothing further. -/
def checkAppend : List StimulationAtom → StimulationAtom → Bool
  | [], a =>
    (decide (a.kind = AtomKind.pause) && decide (a.amplitude = 0)
        && duration10Ok a.duration)
    || (decide (a.kind = AtomKind.mainPulse) && mainAmplitudeOk a.amplitude
        && duration10Ok a.duration)
  | [a1], a =>
    decide (a1.kind = AtomKind.mainPulse) && decide (a.kind = AtomKind.deadZone)
      && decide (a.amplitude = 0) && duration10Ok a.duration
  | [a1, _], a =>
    decide (a.kind = AtomKind.counterPulse)
      && decide (4 * a.amplitude = - a1.amplitude)
      && decide (a.duration = 4 * a1.duration)
  | [_, a2, _], a =>
    decide (a.kind = AtomKind.deadZone) && decide (a.amplitude = 0)
      && decide (a.duration = a2.duration)
  | [_, _, _, _], a =>
    decide (a.kind = AtomKind.deadZone) && decide (a.amplitude = 0)
      && deadZone1DurationOk a.duration
  | _, _ => false

/-- Auxiliary check that a block of atoms can be appended one by one, each
append passing `checkAppend`, starting from the already accepted prefix. -/
def appendAllOk (acc : List StimulationAtom) : List StimulationAtom → Bool
  | [] => true
  | a :: rest => checkAppend acc a && appendAllOk (acc ++ [a]) rest

/-- An atom sequence is valid when it is reachable from the empty function
by successful appends only. -/
def validAtomSeq (l : List StimulationAtom) : Bool :=
  appendAllOk [] l

/-- A stimulation function: an owned ordered atom sequence, a repetition
count, a name, the two virtual-electrode sets and the ground-electrode
flag. -/
structure StimulationFunction where
  atoms : List StimulationAtom
  repetitions : Nat
  name : String
  sourceElectrodes : Finset Nat
  destinationElectrodes : Finset Nat
  useGroundElectrode : Bool
deriving DecidableEq

/-- Modelled from the spec: `IStimulationFunction::append` (implementation
class absent from the repository).  A null atom (modelled as `none`) or an
atom failing its family/position rule is rejected with InvalidArgument and
the function is left unchanged; otherwise the atom is appended at the
end. -/
def StimulationFunction.append (f : StimulationFunction)
    (a : Option StimulationAtom) : Status × StimulationFunction :=
  match a with
  | none => (Status.invalidArgument, f)
  | some atom =>
    if checkAppend f.atoms atom then
      (Status.ok, { f with atoms := f.atoms ++ [atom] })
    else
      (Status.invalidArgument, f)

/-- Modelled from the spec: `getAtomIterator` yields the atoms currently in
the function, in append order. -/
def StimulationFunction.getAtomIterator (f : StimulationFunction) :
    List StimulationAtom :=
  f.atoms

/-- Modelled from the spec: the period is the duration of one repetition,
i.e. the sum of all atom durations, in microseconds. -/
def StimulationFunction.getPeriod (f : StimulationFunction) : Nat :=
  (f.atoms.map (fun a => a.duration)).sum

/-- Modelled from the spec: the total duration of the function including
all repetitions. -/
def StimulationFunction.getDuration (f : StimulationFunction) : Nat :=
  f.getPeriod * f.repetitions

/-- Modelled from the spec: `IStimulationFunction::setRepetitions` takes a
`uint32_t` (width from the header declaration) and fails with
InvalidArgument if the repetition count is below 1. -/
def StimulationFunction.setRepetitions (f : StimulationFunction) (n : Nat) :
    Status × StimulationFunction :=
  let v := n % 4294967296
  if v < 1 then (Status.invalidArgument, f)
  else (Status.ok, { f with repetitions := v })

/-- Reading the function's repetition count back. -/
def StimulationFunction.getRepetitions (f : StimulationFunction) : Nat :=
  f.repetitions

/-- Modelled from the spec: `clone` returns an entirely independent deep
copy; in the value semantics of this embedding that is the identical
value, with no sharing by construction. -/
def StimulationFunction.clone (f : StimulationFunction) : StimulationFunction :=
  f

/-- Modelled from the spec: two functions have equal signal form when their
atom sequences have the same length and are pairwise equal by value;
repetitions, name and electrodes are ignored. -/
def StimulationFunction.hasEqualSignalForm (f g : StimulationFunction) : Bool :=
  decide (f.atoms = g.atoms)

/-- Modelled from the spec: true iff both electrode sets and the
ground-electrode flag match exactly. -/
def StimulationFunction.hasEqualVirtualStimulationElectrodes
    (f g : StimulationFunction) : Bool :=
  decide (f.sourceElectrodes = g.sourceElectrodes ∧
    f.destinationElectrodes = g.destinationElectrodes ∧
    f.useGroundElectrode = g.useGroundElectrode)

/-- Modelled from the spec: `setVirtualStimulationElectrodes` fails with
InvalidArgument if the source and destination sets intersect, or if the
destination set is empty while the ground electrode is not used. -/
def StimulationFunction.setVirtualStimulationElectrodes
    (f : StimulationFunction) (src dst : Finset Nat) (gnd : Bool) :
    Status × StimulationFunction :=
  if src ∩ dst = (∅ : Finset Nat) ∧ (dst ≠ (∅ : Finset Nat) ∨ gnd = true) then
    (Status.ok, { f with
      sourceElectrodes := src
      destinationElectrodes := dst
      useGroundElectrode := gnd })
  else
    (Status.invalidArgument, f)

/-- A stimulation command: an owned ordered function sequence, a
command-level repetition count, a tracing id and a name. -/
structure StimulationCommand where
  functions : List StimulationFunction
  repetitions : Nat
  tracingId : Nat
  name : String

/-- Modelled from the spec: `IStimulationCommand::append` fails with
InvalidArgument if the function is null (modelled as `none`) or its
computed duration is 0, and otherwise appends it at the end. -/
def StimulationCommand.append (c : StimulationCommand)
    (f : Option StimulationFunction) : Status × StimulationCommand :=
  match f with
  | none => (Status.invalidArgument, c)
  | some fn =>
    if fn.getDuration = 0 then (Status.invalidArgument, c)
    else (Status.ok, { c with functions := c.functions ++ [fn] })

/-- Modelled from the spec: `getSize` is the number of appended functions,
unaffected by any repetition count. -/
def StimulationCommand.getSize (c : StimulationCommand) : Nat :=
  c.functions.length

/-- Modelled from the spec: the command's total duration is the sum of the
appended functions' durations multiplied by the command's repetitions. -/
def StimulationCommand.getDuration (c : StimulationCommand) : Nat :=
  (c.functions.map (fun f => f.getDuration)).sum * c.repetitions

/-- Modelled from the spec: the plain producer yields each appended
function exactly once, in append order, ignoring both repetition levels. -/
def StimulationCommand.getFunctionIterator (c : StimulationCommand) :
    List StimulationFunction :=
  c.functions

/-- Modelled from the spec: the command-repetition-aware producer yields
the full append-ordered function sequence repeated `repetitions` times in
total, ignoring each function's own repetitions. -/
def StimulationCommand.getCommandRepetitionAwareFunctionIterator
    (c : StimulationCommand) : List StimulationFunction :=
  (List.replicate c.repetitions c.functions).flatten

/-- Expansion of a function list where each function is yielded its own
`repetitions` times consecutively before advancing to the next one. -/
def repetitionExpand : List StimulationFunction → List StimulationFunction
  | [] => []
  | f :: rest => List.replicate f.repetitions f ++ repetitionExpand rest

/-- Modelled from the spec: the function-repetition-aware producer yields
each function `function.repetitions` times consecutively in append order,
in a single pass; command-level repetition is not applied. -/
def StimulationCommand.getRepetitionAwareFunctionIterator
    (c : StimulationCommand) : List StimulationFunction :=
  repetitionExpand c.functions

/-- Modelled from the spec: `IStimulationCommand::setRepetitions` takes a
`uint16_t` (width from the header declaration) and fails with
InvalidArgument if the repetition count is 0. -/
def StimulationCommand.setRepetitions (c : StimulationCommand) (n : Nat) :
    Status × StimulationCommand :=
  let v := n % 65536
  if v < 1 then (Status.invalidArgument, c)
  else (Status.ok, { c with repetitions := v })

/-- Reading the command's repetition count back. -/
def StimulationCommand.getRepetitions (c : StimulationCommand) : Nat :=
  c.repetitions

/-- Modelled from the spec: `setTracingId` is a plain setter whose argument
is a `uint16_t` (width from the header declaration). -/
def StimulationCommand.setTracingId (c : StimulationCommand) (i : Nat) :
    StimulationCommand :=
  { c with tracingId := i % 65536 }

/-- Reading the command's tracing id back. -/
def StimulationCommand.getTracingId (c : StimulationCommand) : Nat :=
  c.tracingId

/-- A freshly created command: empty, repetitions 1, tracing id 0. -/
def defaultStimulationCommand : StimulationCommand :=
  ⟨[], 1, 0, ""⟩

/-- Wellformedness of a command state at the 16-bit public interface: the
stored repetition count and tracing id fit in a `uint16_t`. -/
def StimulationCommand.wf (c : StimulationCommand) : Prop :=
  c.repetitions ≤ 65535 ∧ c.tracingId ≤ 65535

/-- A main-pulse atom on the legal grid: -24 microamps for 10 microseconds. -/
def atomMain : StimulationAtom :=
  ⟨AtomKind.mainPulse, -24, 10⟩

/-- A dead-zone-0 atom: amplitude 0 for 10 microseconds. -/
def atomDz0 : StimulationAtom :=
  ⟨AtomKind.deadZone, 0, 10⟩

/-- The matching counter pulse: amplitude 6 = -(-24)/4, duration 40 = 4*10. -/
def atomCounter : StimulationAtom :=
  ⟨AtomKind.counterPulse, 6, 40⟩

/-- A dead-zone-1 atom: amplitude 0 for 80 microseconds. -/
def atomDz1 : StimulationAtom :=
  ⟨AtomKind.deadZone, 0, 80⟩

/-- A counter-pulse atom violating the exact amplitude relation to
`atomMain` (4 * 5 = 20 is not 24). -/
def badCounter : StimulationAtom :=
  ⟨AtomKind.counterPulse, 5, 40⟩

/-- The complete legal five-atom pulse sequence built from the atoms above. -/
def pulseAtoms : List StimulationAtom :=
  [atomMain, atomDz0, atomCounter, atomDz0, atomDz1]

/-- A concrete valid pulse function over electrodes 0 (source) and 1
(destination). -/
def exampleFunction : StimulationFunction :=
  ⟨pulseAtoms, 1, "", {0}, {1}, false⟩

/-- A copy of the example function with repetition count 2. -/
def funcA : StimulationFunction :=
  { exampleFunction with repetitions := 2 }

/-- A concrete command holding two copies of the example function, with
command repetitions 1. -/
def exampleCommand : StimulationCommand :=
  ⟨[exampleFunction, exampleFunction], 1, 0, ""⟩

/-- The length of the flattening of `n` copies of a list is `n` times the
list's length. -/
theorem flatten_replicate_length {α : Type} (n : Nat) (l : List α) :
    ((List.replicate n l).flatten).length = l.length * n := by
  induction n with
  | zero => simp
  | succ k ih =>
    simp only [List.replicate_succ, List.flatten_cons, List.length_append, ih]
    ring

/-- The function-repetition-aware expansion has length equal to the sum of
the per-function repetition counts. -/
theorem repetitionExpand_length (l : List StimulationFunction) :
    (repetitionExpand l).length = (l.map (fun f => f.repetitions)).sum := by
  induction l with
  | nil => simp [repetitionExpand]
  | cons f rest ih => simp [repetitionExpand, ih]

/-- When every function repeats exactly once, the function-repetition-aware
expansion is the plain function sequence. -/
theorem repetitionExpand_all_one (l : List StimulationFunction)
    (h : ∀ f ∈ l, f.repetitions = 1) : repetitionExpand l = l := by
  induction l with
  | nil => rfl
  | cons f rest ih =>
    have hf : f.repetitions = 1 := h f (by simp)
    have hrest : repetitionExpand rest = rest :=
      ih (fun g hg => h g (by simp [hg]))
    simp [repetitionExpand, hf, hrest]

/-- Claim C1: in every valid pulse-family function the position-3 counter
pulse has amplitude exactly -1/4 of the main-pulse amplitude and duration
exactly 4 times the main-pulse duration, as exact integer equalities, and
append rejects any position-3 atom violating either equality. -/
theorem counterPulse_exact_relation (a1 a2 a3 b : StimulationAtom)
    (rest : List StimulationAtom)
    (hv : validAtomSeq (a1 :: a2 :: a3 :: rest) = true)
    (hb : 4 * b.amplitude ≠ - a1.amplitude ∨ b.duration ≠ 4 * a1.duration) :
    4 * a3.amplitude = - a1.amplitude ∧
    a3.amplitude = - a1.amplitude / 4 ∧
    a3.duration = 4 * a1.duration ∧
    checkAppend [a1, a2] b = false := by
  have h3 : checkAppend [a1, a2] a3 = true := by
    simp only [validAtomSeq, appendAllOk, List.nil_append, List.cons_append,
      Bool.and_eq_true] at hv
    exact hv.2.2.1
  simp only [checkAppend, Bool.and_eq_true, decide_eq_true_eq] at h3
  obtain ⟨⟨-, hamp⟩, hdur⟩ := h3
  have h4 : checkAppend [a1, a2] b = false := by
    cases hcb : checkAppend [a1, a2] b with
    | false => rfl
    | true =>
      exfalso
      simp only [checkAppend, Bool.and_eq_true, decide_eq_true_eq] at hcb
      rcases hb with hb | hb
      · exact hb hcb.1.2
      · exact hb hcb.2
  exact ⟨hamp, by omega, hdur, h4⟩

/-- Witness for claim C1 at the concrete pulse sequence built from
`atomMain`, and at the concrete off-relation counter atom `badCounter`. -/
theorem counterPulse_exact_relation_witness :
    4 * atomCounter.amplitude = - atomMain.amplitude ∧
    atomCounter.amplitude = - atomMain.amplitude / 4 ∧
    atomCounter.duration = 4 * atomMain.duration ∧
    checkAppend [atomMain, atomDz0] badCounter = false :=
  counterPulse_exact_relation atomMain atomDz0 atomCounter badCounter
    [atomDz0, atomDz1] (by decide) (by decide)

/-- Claim C2: a main-pulse atom with a legal duration is accepted at
position 1 exactly when its amplitude is in [-6120, 0] and on the step
grid: a multiple of 12 at or above -3060, a multiple of 24 below -3060. -/
theorem mainPulse_amplitude_grid (a : StimulationAtom)
    (hk : a.kind = AtomKind.mainPulse) (hd : duration10Ok a.duration = true) :
    checkAppend [] a = true ↔
      (-6120 ≤ a.amplitude ∧ a.amplitude ≤ 0 ∧
        (-3060 ≤ a.amplitude → (12 : Int) ∣ a.amplitude) ∧
        (a.amplitude < -3060 → (24 : Int) ∣ a.amplitude)) := by
  simp [checkAppend, mainAmplitudeOk, hk, hd]
  omega

/-- Witness for claim C2 at the concrete legal main-pulse atom `atomMain`. -/
theorem mainPulse_amplitude_grid_witness :
    checkAppend [] atomMain = true ↔
      (-6120 ≤ atomMain.amplitude ∧ atomMain.amplitude ≤ 0 ∧
        (-3060 ≤ atomMain.amplitude → (12 : Int) ∣ atomMain.amplitude) ∧
        (atomMain.amplitude < -3060 → (24 : Int) ∣ atomMain.amplitude)) :=
  mainPulse_amplitude_grid atomMain rfl (by decide)

/-- Claim C3: after a valid four-atom pulse prefix, a dead-zone atom is
accepted at position 5 exactly when its amplitude is 0 and its duration
lies in the set 10, 80, 160, ..., 20400 (the multiple-of-80 grid with
minimum legal value 10). -/
theorem deadZone1_duration_set (a1 a2 a3 a4 b : StimulationAtom)
    (hv : validAtomSeq [a1, a2, a3, a4] = true)
    (hk : b.kind = AtomKind.deadZone) :
    checkAppend [a1, a2, a3, a4] b = true ↔
      (b.amplitude = 0 ∧
        (b.duration = 10 ∨
          (b.duration % 80 = 0 ∧ 80 ≤ b.duration ∧ b.duration ≤ 20400))) := by
  simp [checkAppend, deadZone1DurationOk, hk]
  omega

/-- Witness for claim C3 at the concrete four-atom prefix of `pulseAtoms`
and the concrete dead-zone-1 atom `atomDz1`. -/
theorem deadZone1_duration_set_witness :
    checkAppend [atomMain, atomDz0, atomCounter, atomDz0] atomDz1 = true ↔
      (atomDz1.amplitude = 0 ∧
        (atomDz1.duration = 10 ∨
          (atomDz1.duration % 80 = 0 ∧ 80 ≤ atomDz1.duration ∧
            atomDz1.duration ≤ 20400))) :=
  deadZone1_duration_set atomMain atomDz0 atomCounter atomDz0 atomDz1
    (by decide) rfl

/-- Claim C4: a rejected append leaves the function unchanged: the atom
does not appear in the subsequent atom-iterator output and the duration
and period are untouched; the failure is reported synchronously as the
non-ok status of the call itself. -/
theorem append_allOrNothing (f : StimulationFunction)
    (a : Option StimulationAtom) (h : (f.append a).1 ≠ Status.ok) :
    (f.append a).2 = f ∧
    (f.append a).2.getAtomIterator = f.getAtomIterator ∧
    (f.append a).2.getDuration = f.getDuration ∧
    (f.append a).2.getPeriod = f.getPeriod := by
  have hbase : (f.append a).2 = f := by
    match a with
    | none => rfl
    | some atom =>
      cases hc : checkAppend f.atoms atom with
      | false => simp [StimulationFunction.append, hc]
      | true =>
        exfalso
        exact h (by simp [StimulationFunction.append, hc])
  exact ⟨hbase, by rw [hbase], by rw [hbase], by rw [hbase]⟩

/-- Witness for claim C4: appending a null atom to the concrete example
function is rejected and changes nothing. -/
theorem append_allOrNothing_witness :
    (exampleFunction.append none).2 = exampleFunction ∧
    (exampleFunction.append none).2.getAtomIterator
      = exampleFunction.getAtomIterator ∧
    (exampleFunction.append none).2.getDuration = exampleFunction.getDuration ∧
    (exampleFunction.append none).2.getPeriod = exampleFunction.getPeriod :=
  append_allOrNothing exampleFunction none (by decide)

/-- Claim C5: the command-repetition-aware producer has length
getSize times command repetitions, the function-repetition-aware producer
has length equal to the sum of the per-function repetition counts, and
when all repetition counts are 1 the three producers yield identical
sequences. -/
theorem producer_length_laws (c : StimulationCommand) :
    c.getCommandRepetitionAwareFunctionIterator.length
      = c.getSize * c.repetitions ∧
    c.getRepetitionAwareFunctionIterator.length
      = (c.functions.map (fun f => f.repetitions)).sum ∧
    c.getFunctionIterator.length = c.getSize ∧
    (c.repetitions = 1 → (∀ f ∈ c.functions, f.repetitions = 1) →
      (c.getCommandRepetitionAwareFunctionIterator = c.getFunctionIterator ∧
        c.getRepetitionAwareFunctionIterator = c.getFunctionIterator)) := by
  refine ⟨?_, repetitionExpand_length c.functions, rfl, ?_⟩
  · exact flatten_replicate_length c.repetitions c.functions
  · intro h1 h2
    constructor
    · simp [StimulationCommand.getCommandRepetitionAwareFunctionIterator, h1,
        StimulationCommand.getFunctionIterator]
    · exact repetitionExpand_all_one c.functions h2

/-- Witness for claim C5 at the concrete command `exampleCommand`, whose
repetition counts are all 1. -/
theorem producer_length_laws_witness :
    exampleCommand.getCommandRepetitionAwareFunctionIterator.length
      = exampleCommand.getSize * exampleCommand.repetitions ∧
    exampleCommand.getRepetitionAwareFunctionIterator.length
      = (exampleCommand.functions.map (fun f => f.repetitions)).sum ∧
    exampleCommand.getFunctionIterator.length = exampleCommand.getSize ∧
    (exampleCommand.getCommandRepetitionAwareFunctionIterator
        = exampleCommand.getFunctionIterator ∧
      exampleCommand.getRepetitionAwareFunctionIterator
        = exampleCommand.getFunctionIterator) :=
  ⟨(producer_length_laws exampleCommand).1,
    (producer_length_laws exampleCommand).2.1,
    (producer_length_laws exampleCommand).2.2.1,
    (producer_length_laws exampleCommand).2.2.2 rfl (by decide)⟩

/-- Claim C6: a function's duration is its period times its repetitions,
a command's duration is the sum of its functions' durations times the
command repetitions, and the worked scenario with functions of 2 and 1
repetitions under command repetitions 3 yields 3 * (2 * periodA + periodB). -/
theorem duration_period_laws (f A B : StimulationFunction)
    (c : StimulationCommand) (hf : 1 ≤ f.repetitions)
    (hA : A.repetitions = 2) (hB : B.repetitions = 1) :
    f.getDuration = f.getPeriod * f.repetitions ∧
    c.getDuration
      = (c.functions.map (fun g => g.getDuration)).sum * c.repetitions ∧
    (StimulationCommand.mk [A, B] 3 0 "").getDuration
      = 3 * (2 * A.getPeriod + B.getPeriod) := by
  refine ⟨rfl, rfl, ?_⟩
  simp [StimulationCommand.getDuration, StimulationFunction.getDuration, hA, hB]
  ring

/-- Witness for claim C6 at the concrete functions `exampleFunction` and
`funcA` and the concrete command `exampleCommand`. -/
theorem duration_period_laws_witness :
    exampleFunction.getDuration
      = exampleFunction.getPeriod * exampleFunction.repetitions ∧
    exampleCommand.getDuration
      = (exampleCommand.functions.map (fun g => g.getDuration)).sum
          * exampleCommand.repetitions ∧
    (StimulationCommand.mk [funcA, exampleFunction] 3 0 "").getDuration
      = 3 * (2 * funcA.getPeriod + exampleFunction.getPeriod) :=
  duration_period_laws exampleFunction funcA exampleFunction exampleCommand
    (by decide) rfl rfl

/-- Claim C7: getSize counts appended functions only: a successful append
increments it by one, a rejected append and setRepetitions leave it
unchanged, and the two-function scenario with repetition counts 2, 1 and
command repetitions 3 has size 2. -/
theorem getSize_counts_functions (c : StimulationCommand)
    (g A B : StimulationFunction) (m : Nat)
    (hA : A.repetitions = 2) (hB : B.repetitions = 1)
    (hg : (c.append (some g)).1 = Status.ok) :
    (c.append (some g)).2.getSize = c.getSize + 1 ∧
    (∀ h : Option StimulationFunction,
      (c.append h).1 ≠ Status.ok → (c.append h).2.getSize = c.getSize) ∧
    ((c.setRepetitions m).2).getSize = c.getSize ∧
    (StimulationCommand.mk [A, B] 3 0 "").getSize = 2 := by
  refine ⟨?_, ?_, ?_, rfl⟩
  · by_cases hd : g.getDuration = 0
    · simp [StimulationCommand.append, hd] at hg
    · simp [StimulationCommand.append, hd, StimulationCommand.getSize]
  · intro h hne
    match h with
    | none => rfl
    | some fn =>
      by_cases hd : fn.getDuration = 0
      · simp [StimulationCommand.append, hd]
      · exact absurd (by simp [StimulationCommand.append, hd]) hne
  · simp only [StimulationCommand.setRepetitions]
    split <;> rfl

/-- Witness for claim C7 at the empty default command, the concrete
example function, and the concrete scenario command. -/
theorem getSize_counts_functions_witness :
    (defaultStimulationCommand.append (some exampleFunction)).2.getSize
      = defaultStimulationCommand.getSize + 1 ∧
    (defaultStimulationCommand.append none).2.getSize
      = defaultStimulationCommand.getSize ∧
    ((defaultStimulationCommand.setRepetitions 70000).2).getSize
      = defaultStimulationCommand.getSize ∧
    (StimulationCommand.mk [funcA, exampleFunction] 3 0 "").getSize = 2 := by
  have T := getSize_counts_functions defaultStimulationCommand
    exampleFunction funcA exampleFunction 70000 rfl rfl (by decide)
  exact ⟨T.1, T.2.1 none (by decide), T.2.2.1, T.2.2.2⟩

/-- Claim C8: two functions have equal virtual stimulation electrodes
exactly when their source sets, destination sets and ground-electrode
flags all match. -/
theorem hasEqualVirtualStimulationElectrodes_iff (f g : StimulationFunction) :
    f.hasEqualVirtualStimulationElectrodes g = true ↔
      (f.sourceElectrodes = g.sourceElectrodes ∧
        f.destinationElectrodes = g.destinationElectrodes ∧
        f.useGroundElectrode = g.useGroundElectrode) := by
  simp [StimulationFunction.hasEqualVirtualStimulationElectrodes]

/-- Claim C9: cloning a valid function yields a deep copy with the same
signal form; the copy is the identical value (so it shares no state with
the original), and mutating the clone's repetition count never changes
its signal form relative to the original. -/
theorem clone_independent_roundTrip (f : StimulationFunction)
    (h : validAtomSeq f.atoms = true) :
    f.clone.hasEqualSignalForm f = true ∧
    f.clone = f ∧
    (∀ n : Nat,
      ((f.clone.setRepetitions n).2).hasEqualSignalForm f = true) := by
  refine ⟨by simp [StimulationFunction.clone,
    StimulationFunction.hasEqualSignalForm], rfl, ?_⟩
  intro n
  simp only [StimulationFunction.clone, StimulationFunction.setRepetitions]
  split <;> simp [StimulationFunction.hasEqualSignalForm]

/-- Witness for claim C9 at the concrete valid pulse function
`exampleFunction`, with the clone's repetition count set to 7. -/
theorem clone_independent_roundTrip_witness :
    exampleFunction.clone.hasEqualSignalForm exampleFunction = true ∧
    exampleFunction.clone = exampleFunction ∧
    ((exampleFunction.clone.setRepetitions 7).2).hasEqualSignalForm
      exampleFunction = true :=
  ⟨(clone_independent_roundTrip exampleFunction (by decide)).1,
    (clone_independent_roundTrip exampleFunction (by decide)).2.1,
    (clone_independent_roundTrip exampleFunction (by decide)).2.2 7⟩

/-- Claim C10: at the public interface a command's repetition count and
tracing id are 16-bit values: setters accept any value up to 65535 (and
store it exactly), the stored values never exceed 65535 from the default
state onwards, while a function's repetition count is 32-bit and accepts
values up to 4294967295. -/
theorem interface_width_bounds (c : StimulationCommand)
    (f : StimulationFunction) (n m t k : Nat)
    (hn1 : 1 ≤ n) (hn2 : n ≤ 65535) (hm1 : 1 ≤ m) (hm2 : m ≤ 4294967295) :
    ((c.setRepetitions n).1 = Status.ok ∧
      (c.setRepetitions n).2.getRepetitions = n) ∧
    ((f.setRepetitions m).1 = Status.ok ∧
      (f.setRepetitions m).2.getRepetitions = m) ∧
    (c.setTracingId t).getTracingId ≤ 65535 ∧
    (StimulationCommand.wf c →
      (StimulationCommand.wf ((c.setRepetitions k).2) ∧
        StimulationCommand.wf (c.setTracingId k) ∧
        c.getRepetitions ≤ 65535 ∧ c.getTracingId ≤ 65535)) ∧
    StimulationCommand.wf defaultStimulationCommand := by
  have hc : c.setRepetitions n
      = (Status.ok, { c with repetitions := n % 65536 }) := by
    simp only [StimulationCommand.setRepetitions]
    rw [if_neg (by omega : ¬ (n % 65536 < 1))]
  have hfm : f.setRepetitions m
      = (Status.ok, { f with repetitions := m % 4294967296 }) := by
    simp only [StimulationFunction.setRepetitions]
    rw [if_neg (by omega : ¬ (m % 4294967296 < 1))]
  refine ⟨?_, ?_, ?_, ?_, ?_⟩
  · rw [hc]
    exact ⟨rfl, (by omega : n % 65536 = n)⟩
  · rw [hfm]
    exact ⟨rfl, (by omega : m % 4294967296 = m)⟩
  · exact (by omega : t % 65536 ≤ 65535)
  · intro hwf
    obtain ⟨hr, ht⟩ := hwf
    refine ⟨?_, ⟨hr, (by omega : k % 65536 ≤ 65535)⟩, hr, ht⟩
    by_cases hcond : k % 65536 < 1
    · simp only [StimulationCommand.setRepetitions]
      rw [if_pos hcond]
      exact ⟨hr, ht⟩
    · simp only [StimulationCommand.setRepetitions]
      rw [if_neg hcond]
      exact ⟨(by omega : k % 65536 ≤ 65535), ht⟩
  · exact ⟨by decide, by decide⟩

/-- Witness for claim C10 at the default command and the concrete example
function, with in-range and truncating inputs. -/
theorem interface_width_bounds_witness :
    ((defaultStimulationCommand.setRepetitions 5).1 = Status.ok ∧
      (defaultStimulationCommand.setRepetitions 5).2.getRepetitions = 5) ∧
    ((exampleFunction.setRepetitions 70000).1 = Status.ok ∧
      (exampleFunction.setRepetitions 70000).2.getRepetitions = 70000) ∧
    (defaultStimulationCommand.setTracingId 123456).getTracingId ≤ 65535 ∧
    (StimulationCommand.wf ((defaultStimulationCommand.setRepetitions 70000).2) ∧
      StimulationCommand.wf (defaultStimulationCommand.setTracingId 70000) ∧
      defaultStimulationCommand.getRepetitions ≤ 65535 ∧
      defaultStimulationCommand.getTracingId ≤ 65535) ∧
    StimulationCommand.wf defaultStimulationCommand := by
  have T := interface_width_bounds defaultStimulationCommand exampleFunction
    5 70000 123456 70000 (by omega) (by omega) (by omega) (by omega)
  exact ⟨T.1, T.2.1, T.2.2.1, T.2.2.2.1 ⟨by decide, by decide⟩, T.2.2.2.2⟩
